import Mathlib

/-!
Verification development for the ohlc-rs chart renderer.

The Rust sources embedded here are `src/lib.rs` (the `OHLCRenderOptions`
builder, `render`, `render_and_save` and `validate`) and
`src/model/rex/bollinger_bands.rs` (the `BollingerBands` renderer extension
with its `std_dev` and `avg` helpers).

Modelling conventions:
* `f64` prices and configuration intervals are modelled by `ℚ`; the IEEE
  special values that the code can actually produce (division by zero,
  casts of NaN) are modelled explicitly by the `RVal` type below.  The
  binary rounding of IEEE arithmetic is idealised away: every arithmetic
  step is exact.
* `u32` quantities are modelled by `Nat`; where the source can wrap a
  `u32` subtraction (release-mode semantics) the embedding goes through
  `wrap32` on `ℤ`.
* fallible steps (validation failures, file and codec failures, and
  places where the source indexes out of bounds or underflows `usize`,
  i.e. panics) are surfaced as `Except`/`Option` error results.
-/

namespace Ohlc

/-- Model of an IEEE double: either a finite value, carried exactly as a
rational, or one of the special values the embedded code paths can
produce.  Binary rounding of finite results is not modelled. -/
inductive RVal where
  | num : ℚ → RVal
  | pinf : RVal
  | ninf : RVal
  | nan : RVal
deriving DecidableEq

namespace RVal

/-- IEEE addition on the modelled values. -/
def add : RVal → RVal → RVal
  | nan, _ => nan
  | _, nan => nan
  | num a, num b => num (a + b)
  | pinf, ninf => nan
  | ninf, pinf => nan
  | pinf, _ => pinf
  | _, pinf => pinf
  | ninf, _ => ninf
  | _, ninf => ninf

/-- IEEE subtraction on the modelled values. -/
def sub : RVal → RVal → RVal
  | nan, _ => nan
  | _, nan => nan
  | num a, num b => num (a - b)
  | pinf, pinf => nan
  | ninf, ninf => nan
  | pinf, _ => pinf
  | _, ninf => pinf
  | ninf, _ => ninf
  | _, pinf => ninf

/-- IEEE multiplication on the modelled values (zero times infinity is NaN). -/
def mul : RVal → RVal → RVal
  | nan, _ => nan
  | _, nan => nan
  | num a, num b => num (a * b)
  | num a, pinf => if a = 0 then nan else if 0 < a then pinf else ninf
  | num a, ninf => if a = 0 then nan else if 0 < a then ninf else pinf
  | pinf, num b => if b = 0 then nan else if 0 < b then pinf else ninf
  | ninf, num b => if b = 0 then nan else if 0 < b then ninf else pinf
  | pinf, pinf => pinf
  | ninf, ninf => pinf
  | pinf, ninf => ninf
  | ninf, pinf => ninf

/-- IEEE division on the modelled values: a finite value divided by zero
gives a signed infinity, zero by zero gives NaN. -/
def div : RVal → RVal → RVal
  | nan, _ => nan
  | _, nan => nan
  | num a, num b =>
      if b = 0 then (if a = 0 then nan else if 0 < a then pinf else ninf)
      else num (a / b)
  | num _, pinf => num 0
  | num _, ninf => num 0
  | pinf, num b => if b < 0 then ninf else pinf
  | ninf, num b => if b < 0 then pinf else ninf
  | pinf, _ => nan
  | ninf, _ => nan

/-- Truncation toward zero of a rational, as Rust float-to-integer casts
do (`Int.tdiv` truncates toward zero; the denominator is positive). -/
def ratTrunc (q : ℚ) : ℤ := Int.tdiv q.num (q.den : ℤ)

/-- Floor of a rational (`Int.ediv` with the positive denominator is the
floor of the quotient). -/
def ratFloor (q : ℚ) : ℤ := Int.ediv q.num (q.den : ℤ)

/-- Rust `f64 % f64` (fmod): `a - b * trunc(a / b)`; NaN when the divisor is
zero or the dividend infinite. -/
def fmod : RVal → RVal → RVal
  | num a, num b => if b = 0 then nan else num (a - b * ((ratTrunc (a / b) : ℤ) : ℚ))
  | num a, pinf => num a
  | num a, ninf => num a
  | _, _ => nan

/-- Rounding half away from zero on rationals, as Rust `f64::round` does:
truncating `q + 1/2` toward zero on nonnegative `q` equals flooring it,
and symmetrically below zero. -/
def ratRoundHA (q : ℚ) : ℤ := if 0 ≤ q then ratTrunc (q + 1 / 2) else ratTrunc (q - 1 / 2)

/-- Rust `f64::round` on the modelled values. -/
def roundR : RVal → RVal
  | num q => num ((ratRoundHA q : ℤ) : ℚ)
  | v => v

/-- Rust `f64::floor` on the modelled values. -/
def floorR : RVal → RVal
  | num q => num ((ratFloor q : ℤ) : ℚ)
  | v => v

/-- Rust `as u32` on an `f64` (saturating since Rust 1.45): NaN goes to 0,
negative values and negative infinity to 0, too-large values and positive
infinity to `u32::MAX`. -/
def toU32 : RVal → Nat
  | num q => if q < 0 then 0 else min (ratTrunc q).toNat 4294967295
  | pinf => 4294967295
  | ninf => 0
  | nan => 0

/-- IEEE strict less-than as a boolean; false whenever NaN is involved. -/
def blt : RVal → RVal → Bool
  | nan, _ => false
  | _, nan => false
  | num a, num b => decide (a < b)
  | num _, pinf => true
  | num _, ninf => false
  | pinf, _ => false
  | ninf, ninf => false
  | ninf, _ => true

/-- IEEE less-or-equal as a boolean; false whenever NaN is involved. -/
def ble : RVal → RVal → Bool
  | nan, _ => false
  | _, nan => false
  | num a, num b => decide (a ≤ b)
  | num _, pinf => true
  | num _, ninf => false
  | pinf, pinf => true
  | pinf, _ => false
  | ninf, _ => true

end RVal

/-- Rust release-mode `u32` wrap-around of an integer expression. -/
def wrap32 (n : ℤ) : Nat := (n % 4294967296).toNat

/-- One OHLC bar (`src/data.rs` struct `OHLC`, fields `o h l c : f64`,
visible through every use in `src/lib.rs`). -/
structure OHLC where
  o : ℚ
  h : ℚ
  l : ℚ
  c : ℚ
deriving DecidableEq

/-- The error message produced by `validate` for one bar: the first failing
check of the if-chain in `src/lib.rs` lines 368-380, in source order. -/
def barErr (e : OHLC) : Option String :=
  if e.o > e.h then some "Opening value is higher than high value."
  else if e.c > e.h then some "Closing value is higher than high value."
  else if e.l > e.h then some "Low value is higher than high value."
  else if e.o < e.l then some "Opening value is lower than low value."
  else if e.c < e.l then some "Closing value is lower than low value."
  else none

/-- `validate` from `src/lib.rs` lines 366-383: walks the bars in order and
returns the error of the first bar whose first check fails; an exhausted
loop (including the empty series) returns `Ok(())`. -/
def validate : List OHLC → Except String Unit
  | [] => Except.ok ()
  | e :: rest =>
      match barErr e with
      | some msg => Except.error msg
      | none => validate rest

/-- The five OHLC ordering relations the specification names, in its fixed
priority order. -/
inductive Violation where
  | openHigh
  | closeHigh
  | lowHigh
  | openLow
  | closeLow
deriving DecidableEq

/-- The error message the specification associates with each violated
relation. -/
def violationMsg : Violation → String
  | Violation.openHigh => "Opening value is higher than high value."
  | Violation.closeHigh => "Closing value is higher than high value."
  | Violation.lowHigh => "Low value is higher than high value."
  | Violation.openLow => "Opening value is lower than low value."
  | Violation.closeLow => "Closing value is lower than low value."

/-- The first violated relation of a bar in the fixed priority order
`open>high, close>high, low>high, open<low, close<low` stated by the
specification. -/
def firstViolation (e : OHLC) : Option Violation :=
  if e.o > e.h then some Violation.openHigh
  else if e.c > e.h then some Violation.closeHigh
  else if e.l > e.h then some Violation.lowHigh
  else if e.o < e.l then some Violation.openLow
  else if e.c < e.l then some Violation.closeLow
  else none

/-- A bar satisfying the OHLC ordering invariant of the specification. -/
def wellFormed (e : OHLC) : Prop :=
  e.l ≤ e.o ∧ e.o ≤ e.h ∧ e.l ≤ e.c ∧ e.c ≤ e.h

instance (e : OHLC) : Decidable (wellFormed e) := by
  unfold wellFormed; infer_instance

/-- Arithmetic mean from `src/model/rex/bollinger_bands.rs` lines 97-105:
sum of the list divided by its length (on the empty list the source divides
zero by zero; over `ℚ` this denormalised case yields 0). -/
def avg (prices : List ℚ) : ℚ := prices.sum / (prices.length : ℚ)

/-- The radicand computed by `std_dev` in `src/model/rex/bollinger_bands.rs`
lines 81-95, with the early `return 0.` for lists of at most one element
folded in (the square root of 0 is 0, so composing with `Real.sqrt` below
is the source function). -/
def std_dev_sq (prices : List ℚ) : ℚ :=
  if prices.length ≤ 1 then 0
  else ((prices.map (fun p => (avg prices - p) ^ 2)).sum) / ((prices.length - 1 : ℕ) : ℚ)

/-- `std_dev` from `src/model/rex/bollinger_bands.rs` lines 81-95: 0 for at
most one element, otherwise the square root of the sum of squared
deviations from the mean divided by `len - 1`. -/
noncomputable def std_dev (prices : List ℚ) : ℝ := Real.sqrt ((std_dev_sq prices : ℚ) : ℝ)

/-- `BollingerBands::apply` from `src/model/rex/bollinger_bands.rs` lines
30-70, reduced to the drawing commands it issues.  The parts of the
repository absent from `src/` are parameters: `med` stands for
`model::rex::ema::median_list` applied pointwise (the per-bar
representative price of the specification), and `coords` stands for
`ChartBuffer::data_to_coords` (the price/time to pixel mapper).  The
result is the ordered list of `(p1, p2, colour)` line segments, or `none`
where the source panics: when `bands` is empty, the loop bound
`bands.len() - 1` underflows `usize` (debug: subtraction overflow panic;
release: the wrapped bound makes `bands[0]` an out-of-bounds index). -/
noncomputable def bollingerApply {α : Type} (periods standard_deviations line_colour : Nat)
    (timeframe : ℤ) (med : α → ℚ) (coords : ℝ → ℤ → ℤ × ℤ) (data : List α) :
    Option (List ((ℤ × ℤ) × (ℤ × ℤ) × Nat)) :=
  let bands : List (ℝ × ℝ × ℝ) :=
    (List.range' periods (data.length - periods)).map (fun i =>
      let medians : List ℚ := ((data.drop (i - periods)).take periods).map med
      let scaled : ℝ := std_dev medians * (standard_deviations : ℝ)
      let moving : ℝ := ((avg medians : ℚ) : ℝ)
      (moving + scaled, moving, moving - scaled))
  if bands.length = 0 then none
  else
    let offset : ℤ := RVal.ratTrunc (((periods : ℚ) + 1 / 2) * (timeframe : ℚ) / (data.length : ℚ))
    let timeAt : Nat → ℤ := fun i => (i : ℤ) * timeframe / (data.length : ℤ) + offset
    let bandAt : Nat → ℝ × ℝ × ℝ := fun i => bands.getD i (0, 0, 0)
    some ((List.range (bands.length - 1)).flatMap (fun i =>
      [ (coords (bandAt i).1 (timeAt i), coords (bandAt (i + 1)).1 (timeAt (i + 1)), line_colour)
      , (coords (bandAt i).2.1 (timeAt i), coords (bandAt (i + 1)).2.1 (timeAt (i + 1)), line_colour)
      , (coords (bandAt i).2.2 (timeAt i), coords (bandAt (i + 1)).2.2 (timeAt (i + 1)), line_colour) ]))

/-- Axis configuration (`src/options.rs`, absent from `src/`; the field set
is fixed by the struct literal in the `axis_options_modification` test of
`src/lib.rs` lines 418-434).  The two `f64` interval fields are carried as
rationals; the title is carried as its byte sequence. -/
structure AxisOptions where
  title : List Nat
  title_colour : Nat
  line_colour : Nat
  line_frequency : ℚ
  label_colour : Nat
  label_frequency : ℚ
deriving DecidableEq

/-- `OHLCRenderOptions` from `src/lib.rs` lines 27-56, restricted to the
fields `render_and_save` reads.  The fields `value_prefix`, `value_suffix`,
`time_units` and `h_axis_options` are marked `Currently ignored` in the
source and are never read by the renderer, so they are omitted here; the
title string is carried as its byte sequence. -/
structure OHLCRenderOptions where
  title : List Nat
  title_colour : Nat
  background_colour : Nat
  current_value_colour : Nat
  v_axis_options : AxisOptions
  down_colour : Nat
  up_colour : Nat
deriving DecidableEq

/-- Canvas geometry constants from `src/lib.rs` lines 148-154. -/
def margin_top : Nat := 60

/-- Canvas geometry constants from `src/lib.rs` lines 148-154. -/
def margin_bottom : Nat := 35

/-- Canvas geometry constants from `src/lib.rs` lines 148-154. -/
def margin_left : Nat := 0

/-- Canvas geometry constants from `src/lib.rs` lines 148-154. -/
def margin_right : Nat := 90

/-- Canvas geometry constants from `src/lib.rs` lines 148-154. -/
def canvas_width : Nat := 1280

/-- Canvas geometry constants from `src/lib.rs` lines 148-154. -/
def canvas_height : Nat := 720

/-- One RGBA pixel, a byte per channel, as in `ImageBuffer<image::Rgba<u8>>`. -/
structure Px where
  r : Nat
  g : Nat
  b : Nat
  a : Nat
deriving DecidableEq

/-- `ImageBuffer::new` zero-initialises every channel. -/
def Px.zero : Px := ⟨0, 0, 0, 0⟩

/-- The pixel canvas: dimensions fixed at allocation plus the pixel grid. -/
structure Image where
  width : Nat
  height : Nat
  px : Nat → Nat → Px

/-- The dimension pair of a canvas. -/
def Image.dims (img : Image) : Nat × Nat := (img.width, img.height)

/-- Overwrite one pixel (the `get_pixel_mut` / channel assignment pattern of
the source; coordinates outside the canvas would panic in the source and
are immaterial to the theorems below). -/
def setPx (img : Image) (x y : Nat) (p : Px) : Image :=
  { img with px := fun i j => if i = x ∧ j = y then p else img.px i j }

/-- Unpack a packed `0xRRGGBBAA` colour the way the source writes it:
`chs[3 - j] = (colour >> (8 * j)) as u8` for `j` in `0..4`. -/
def colourToPx (colour : Nat) : Px :=
  ⟨(colour >>> 24) % 256, (colour >>> 16) % 256, (colour >>> 8) % 256, colour % 256⟩

/-- Modelled from the spec: `calculate_ohlc_of_set` (`src/data.rs`, absent
from `src/`) — the aggregate summary of section 3: `high = max(bar.high)`,
`low = min(bar.low)`, `last_close = series.last().close`; the open of the
first bar fills the remaining field.  The spec leaves the empty series
unspecified; this model returns the all-zero bar for it. -/
def calculate_ohlc_of_set : List OHLC → OHLC
  | [] => ⟨0, 0, 0, 0⟩
  | x :: xs => xs.foldl (fun acc e => ⟨acc.o, max acc.h e.h, min acc.l e.l, e.c⟩) x

/-- Modelled from the spec: `OHLC::range` (`src/data.rs`, absent from
`src/`) — `range = high - low` of the aggregate summary. -/
def OHLC.range (e : OHLC) : ℚ := e.h - e.l

/-- `y_val_increment` from `src/lib.rs` line 175: the aggregate range over
the drawable height. -/
def yValIncrement (set : OHLC) : RVal :=
  RVal.div (RVal.num set.range) (RVal.num ((canvas_height - (margin_top + margin_bottom) : Nat) : ℚ))

/-- The vertical offset (in drawable pixels above the bottom margin) of a
price, as computed throughout the candle section of `src/lib.rs`
(lines 214-215, 234, 249): `((price - low) / y_val_increment).round() as u32`. -/
def ysOf (set : OHLC) (price : ℚ) : Nat :=
  RVal.toU32 (RVal.roundR (RVal.div (RVal.num (price - set.l)) (yValIncrement set)))

/-- The pixel row of a price: `height - y_state - margin_bottom`
(`src/lib.rs` lines 221, 235, 249). -/
def priceToY (set : OHLC) (price : ℚ) : Nat :=
  canvas_height - ysOf set price - margin_bottom

/-- `candle_width` from `src/lib.rs` line 172:
`((width - (margin_left + margin_right)) as f64 / data.len() as f64).floor()`.
For the empty series this divides by the series length zero. -/
def candleWidthR (len : Nat) : RVal :=
  RVal.floorR (RVal.div
    (RVal.num ((canvas_width - (margin_left + margin_right) : Nat) : ℚ))
    (RVal.num (len : ℚ)))

/-- `stick_width` from `src/lib.rs` line 173, including the closure that
widens a zero stick to one pixel on candles at least three pixels wide. -/
def stickWidth (cw : RVal) : Nat :=
  let x := RVal.toU32 (RVal.roundR (RVal.add (RVal.div cw (RVal.num 10)) (RVal.num (3 / 10))))
  if x < 1 ∧ RVal.ble (RVal.num 3) cw then 1 else x

/-- Decimal byte string of a natural number. -/
def natToBytes (n : Nat) : List Nat := (Nat.toDigits 10 n).map Char.toNat

/-- Fractional digit bytes of a rational in `[0, 1)`, most significant
first, stopping at an exact zero remainder or after the fuel runs out. -/
def fracDigits : Nat → ℚ → List Nat
  | 0, _ => []
  | k + 1, f =>
      let d : Nat := (RVal.ratTrunc (f * 10)).toNat
      let rest : ℚ := f * 10 - (d : ℚ)
      (48 + d) :: (if rest = 0 then [] else fracDigits k rest)

/-- Modelled idealisation of the Rust `format!` decimal display of an `f64`
label value (an external formatting facility): sign, integer digits, and
up to six fractional digits.  The exact digit strings are immaterial to
the claims proved below; only determinism and the byte range matter. -/
def fmtRat (q : ℚ) : List Nat :=
  let s : List Nat := if q < 0 then [45] else []
  let aq : ℚ := if q < 0 then -q else q
  let ip : Nat := (RVal.ratTrunc aq).toNat
  let fr : ℚ := aq - (ip : ℚ)
  s ++ natToBytes ip ++ (if fr = 0 then [] else 46 :: fracDigits 6 fr)

/-- The finite value carried by an `RVal`, defaulting to 0 (used only where
the surrounding guard has already excluded the special values). -/
def rvalToQ : RVal → ℚ
  | RVal.num q => q
  | _ => 0

/-- One queued text draw of `src/lib.rs` line 144:
`(String.bytes, top edge x, leftmost edge y, colour, do a border)`. -/
structure TextEntry where
  chars : List Nat
  base_x : Nat
  base_y : Nat
  colour : Nat
  border : Bool

/-- The font-table row selected for character cell `f_x` of a byte string,
from `src/lib.rs` line 290:
`fonts::ASCII_TABLE[chars[(|d| if d < 127 { d } else { 0x20 })(f_x)] as usize]`.
The range-check closure is applied to the cell index `f_x`, not to the
byte, so a byte of at least 127 reaches `ASCII_TABLE` — which has only 127
rows (`[[u8; 170]; 127]`, `src/lib.rs` line 514) — and the result is
`none`: an out-of-bounds index, a panic in the source. -/
def glyphAt (chars : List Nat) (f_x : Nat) : Option Nat :=
  let b := chars.getD (if f_x < 127 then f_x else 32) 0
  if b < 127 then some b else none

/-- Whether rendering the queued text would panic: some cell of some queued
string selects a font-table row out of bounds. -/
def textHasBadByte (queue : List TextEntry) : Bool :=
  queue.any (fun e => (List.range e.chars.length).any (fun f_x => (glyphAt e.chars f_x).isNone))

/-- The y-axis label entries queued by the grid loop of `src/lib.rs`
lines 178-204, in loop order: for each drawable row `y_es` whose mapped
value passes the label-frequency window test, the rounded label value is
formatted, truncated to the margin width, and queued at the right margin. -/
def gridLabelEntries (opts : OHLCRenderOptions) (set : OHLC) : List TextEntry :=
  let yinc := yValIncrement set
  if opts.v_axis_options.line_colour % 256 > 0 ∧ 0 < opts.v_axis_options.line_frequency then
    (List.range (canvas_height - (margin_top + margin_bottom))).filterMap (fun (y_es : Nat) =>
      let v := RVal.sub (RVal.num set.h) (RVal.mul (RVal.num (y_es : ℚ)) yinc)
      let d := RVal.fmod v (RVal.num opts.v_axis_options.label_frequency)
      if opts.v_axis_options.label_colour % 256 ≠ 0 ∧
          (RVal.blt d yinc ∧ RVal.ble (RVal.num 0) d) then
        let value := RVal.mul
          (RVal.roundR (RVal.div v (RVal.num opts.v_axis_options.label_frequency)))
          (RVal.num opts.v_axis_options.label_frequency)
        let chars := (fmtRat (rvalToQ value)).take
          (((margin_right : Nat) - 10) / 10)
        some ⟨chars, canvas_width - margin_right + 10, y_es + margin_top - 8,
              opts.v_axis_options.label_colour, true⟩
      else none)
  else []

/-- The closing-value label queued by the last candle iteration
(`src/lib.rs` lines 272-280). -/
def valueLabelEntry (opts : OHLCRenderOptions) (set : OHLC) : TextEntry :=
  ⟨(fmtRat set.c).take (((margin_right : Nat) - 10) / 10),
   canvas_width - margin_right + 10,
   priceToY set set.c - 8,
   opts.current_value_colour, true⟩

/-- The full text queue in push order: grid labels (ascending row), then
the closing-value label (only when the candle loop ran at all), then the
title (`src/lib.rs` line 284). -/
def textQueue (opts : OHLCRenderOptions) (data : List OHLC) : List TextEntry :=
  let set := calculate_ohlc_of_set data
  gridLabelEntries opts set ++
    (if data.length = 0 then [] else [valueLabelEntry opts set]) ++
    [⟨opts.title, 0, 0, opts.title_colour, false⟩]

/-- The background fill of `src/lib.rs` lines 158-170: every pixel set to
the background colour, but only when its alpha byte is nonzero. -/
def fillBackground (opts : OHLCRenderOptions) (img : Image) : Image :=
  if opts.background_colour % 256 > 0 then
    (List.range canvas_width).foldl (fun im x =>
      (List.range canvas_height).foldl (fun im2 y =>
        setPx im2 x y (colourToPx opts.background_colour)) im) img
  else img

/-- The horizontal grid lines of `src/lib.rs` lines 178-191: guarded by a
nonzero line colour alpha and a positive line frequency, a full-width row
is drawn wherever the mapped value of the row falls within one increment
above a multiple of the frequency. -/
def drawGridLines (opts : OHLCRenderOptions) (set : OHLC) (img : Image) : Image :=
  let yinc := yValIncrement set
  if opts.v_axis_options.line_colour % 256 > 0 ∧ 0 < opts.v_axis_options.line_frequency then
    (List.range (canvas_height - (margin_top + margin_bottom))).foldl (fun im (y_es : Nat) =>
      let d := RVal.fmod
        (RVal.sub (RVal.num set.h) (RVal.mul (RVal.num (y_es : ℚ)) yinc))
        (RVal.num opts.v_axis_options.line_frequency)
      if RVal.blt d yinc ∧ RVal.ble (RVal.num 0) d then
        (List.range (canvas_width - (margin_left + margin_right))).foldl (fun im2 x =>
          setPx im2 x (y_es + margin_top) (colourToPx opts.v_axis_options.line_colour)) im
      else im) img
  else img

/-- The cross/diamond marker offsets of `src/lib.rs` lines 259-261:
`x_offset` outer from -2 to 2, `y_offset` inner, kept only when
`x_offset == y_offset || x_offset + y_offset == 0 || x_offset == 0`. -/
def markerOffsets : List (ℤ × ℤ) :=
  ((List.range 5).map (fun a => (a : ℤ) - 2)).flatMap (fun xo =>
    ((List.range 5).map (fun b => (b : ℤ) - 2)).map (fun yo => (xo, yo)))

/-- One iteration of the candle loop of `src/lib.rs` lines 207-282: body
rectangle, wick (stick) rectangle, and — on the last bar only — the
current-value line, the marker, all in source order.  The wick x-range
subtraction `x_center - stick_width - 1` is a `u32` subtraction that the
source performs with wrap-around in release mode; it goes through
`wrap32`. -/
def drawBar (opts : OHLCRenderOptions) (set : OHLC) (cw : RVal) (stick : Nat)
    (len : Nat) (img : Image) (i : Nat) (elem : OHLC) : Image :=
  let colour := if elem.o > elem.c then opts.down_colour else opts.up_colour
  let begin_pos := RVal.toU32 (RVal.mul cw (RVal.num (i : ℚ)))
  let end_pos := RVal.toU32 (RVal.mul cw (RVal.num ((i + 1 : Nat) : ℚ)))
  let open_ys := ysOf set elem.o
  let close_ys := ysOf set elem.c
  let x_center := RVal.toU32 (RVal.roundR
    (RVal.div (RVal.num ((begin_pos + end_pos : Nat) : ℚ)) (RVal.num 2)))
  let bodyRows := if open_ys > close_ys then List.range' close_ys (1 + open_ys - close_ys)
                  else List.range' open_ys (1 + close_ys - open_ys)
  let xEnd := if end_pos - begin_pos > 3 then end_pos - 1 else end_pos + 1
  let img := bodyRows.foldl (fun im y_state =>
    (List.range' begin_pos (xEnd - begin_pos)).foldl (fun im2 x =>
      setPx im2 x (canvas_height - y_state - margin_bottom) (colourToPx colour)) im) img
  let low_ys := ysOf set elem.l
  let high_ys := ysOf set elem.h
  let sxa := wrap32 ((x_center : ℤ) - (stick : ℤ) - 1)
  let sxb := wrap32 ((x_center : ℤ) + (stick : ℤ) - 1)
  let img := (List.range' low_ys (1 + high_ys - low_ys)).foldl (fun im y_state =>
    (List.range' sxa (sxb - sxa)).foldl (fun im2 x =>
      setPx im2 x (canvas_height - y_state - margin_bottom) (colourToPx colour)) im) img
  if i = len - 1 then
    let y := priceToY set set.c
    let img := (List.range' margin_left (canvas_width - margin_right - margin_left)).foldl
      (fun im x => setPx im x y (colourToPx opts.current_value_colour)) img
    markerOffsets.foldl (fun im p =>
      if p.1 = p.2 ∨ p.1 + p.2 = 0 ∨ p.1 = 0 then
        setPx im (wrap32 (p.1 + (x_center : ℤ))) (wrap32 (p.2 + (y : ℤ)))
          (colourToPx opts.current_value_colour)
      else im) img
  else img

/-- The per-channel glyph blend of `src/lib.rs` lines 342-348:
`round((shade * ink + (255 - shade) * background) / 255)`, computed here
exactly over naturals (`(2 m + 255) / 510` floors to the rounded value). -/
def blendChannel (shade ink bg : Nat) : Nat :=
  (2 * (shade * ink + (255 - shade) * bg) + 255) / 510

/-- The border paint of `src/lib.rs` lines 296-317: a one-pixel halo cell
around the 10 x 17 glyph box, selected by the same `paint_cords` option
chain as the source. -/
def paintBorder (colour : Nat) (img : Image) (x y iy ix : Nat) : Image :=
  let pc0 : Option (Nat × Nat) :=
    if iy = 0 then some (x, y - 1)
    else if iy = 16 then some (x, y + 1)
    else none
  let pc : Option (Nat × Nat) :=
    if ix = 0 then some (x - 1, (pc0.getD (0, y)).2)
    else if ix = 9 then some (x + 1, (pc0.getD (0, y)).2)
    else pc0
  match pc with
  | some p => setPx img p.1 p.2 (colourToPx colour)
  | none => img

/-- One glyph pixel of `src/lib.rs` lines 291-351: optional border cell,
then either a background overwrite (zero coverage) or a blend of the ink
and background colours on the three colour channels, leaving the existing
alpha untouched. -/
def glyphPixelStep (table : Nat → Nat → Nat) (opts : OHLCRenderOptions) (colour : Nat)
    (border : Bool) (row : Nat) (img : Image) (x y iy ix : Nat) : Image :=
  let img1 := if border then paintBorder colour img x y iy ix else img
  let shade := table row (ix + iy * 10)
  if shade = 0 then setPx img1 x y (colourToPx opts.background_colour)
  else
    let old := img1.px x y
    setPx img1 x y
      { r := blendChannel shade ((colour >>> 24) % 256) ((opts.background_colour >>> 24) % 256)
      , g := blendChannel shade ((colour >>> 16) % 256) ((opts.background_colour >>> 16) % 256)
      , b := blendChannel shade ((colour >>> 8) % 256) ((opts.background_colour >>> 8) % 256)
      , a := old.a }

/-- One queued string rendered glyph cell by glyph cell (`src/lib.rs` lines
287-353).  `table` is the 127-row read-only font table (`src/fonts.rs`, a
generated asset absent from `src/`), as row/offset coverage values; the
row for each cell comes from `glyphAt`, whose `none` (panic) case is
excluded by the `textHasBadByte` gate before this function runs. -/
def drawText (table : Nat → Nat → Nat) (opts : OHLCRenderOptions) (img : Image)
    (e : TextEntry) : Image :=
  (List.range e.chars.length).foldl (fun im f_x =>
    let row := (glyphAt e.chars f_x).getD 0
    (List.range 17).foldl (fun im2 iy =>
      (List.range 10).foldl (fun im3 ix =>
        glyphPixelStep table opts e.colour e.border row im3
          (e.base_x + (ix + f_x * 10)) (e.base_y + iy) iy ix) im2) im) img

/-- The whole pixel pass of `render_and_save` (`src/lib.rs` lines 142-353)
on an already validated series: allocate, fill the background, draw the
grid rows, the candles with wicks and the current-value markers, then the
queued text. -/
def drawAll (table : Nat → Nat → Nat) (opts : OHLCRenderOptions) (data : List OHLC) : Image :=
  let set := calculate_ohlc_of_set data
  let cw := candleWidthR data.length
  let stick := stickWidth cw
  let img0 : Image := ⟨canvas_width, canvas_height, fun _ _ => Px.zero⟩
  let img1 := fillBackground opts img0
  let img2 := drawGridLines opts set img1
  let img3 := (data.enum).foldl (fun im p => drawBar opts set cw stick data.length im p.1 p.2) img2
  (textQueue opts data).foldl (fun im e => drawText table opts im e) img3

/-- The ambient process state available to a render call: a clock, an
entropy source, and the success of the three operating-system interactions
(temporary directory creation, file creation, codec write).  The pixel
computation of the source never consults the clock or the entropy source;
threading the environment makes that an explicit theorem. -/
structure Env where
  clock : Nat
  rng : Nat → Nat
  tempdir_ok : Bool
  file_ok : Bool
  codec_ok : Bool

/-- The pixel-buffer computation of `render_and_save` (`src/lib.rs` lines
138-353): validation first (line 139-141, with the `Data validation
error:` framing), then the glyph pass either panics on an out-of-range
text byte — surfaced as an error — or produces the finished canvas. -/
def renderBuffer (table : Nat → Nat → Nat) (opts : OHLCRenderOptions) (data : List OHLC)
    (_env : Env) : Except String Image :=
  match validate data with
  | Except.error e => Except.error ("Data validation error: " ++ e)
  | Except.ok _ =>
      if textHasBadByte (textQueue opts data) then
        Except.error "index out of bounds in fonts::ASCII_TABLE"
      else Except.ok (drawAll table opts data)

/-- `render_and_save` (`src/lib.rs` lines 138-363) end to end: the pixel
pass, then `File::create` and the PNG codec write (lines 356-362), whose
success comes from the environment. -/
def renderAndSave (table : Nat → Nat → Nat) (opts : OHLCRenderOptions) (data : List OHLC)
    (env : Env) : Except String Image :=
  match renderBuffer table opts data env with
  | Except.error e => Except.error e
  | Except.ok img =>
      if env.file_ok then
        if env.codec_ok then Except.ok img
        else Except.error "Image write error"
      else Except.error "File create error"

/-- The dimensions of a successfully written image, if any. -/
def savedDims : Except String Image → Option (Nat × Nat)
  | Except.ok img => some (img.width, img.height)
  | Except.error _ => none

/-- Whether an `Except` result is the success case. -/
def isOkE : Except String Image → Bool
  | Except.ok _ => true
  | Except.error _ => false

/-- The colour layout of the buffer the codec receives, from `src/lib.rs`
line 156 (`ImageBuffer<image::Rgba<u8>, _>`) and line 357
(`image::ImageRgba8(image_buffer).save(file, image::PNG)`). -/
inductive PixelFormat where
  | rgb8
  | rgba8
deriving DecidableEq

/-- Whether a colour layout carries an alpha channel. -/
def PixelFormat.hasAlpha : PixelFormat → Bool
  | PixelFormat.rgb8 => false
  | PixelFormat.rgba8 => true

/-- Channel count of a colour layout. -/
def PixelFormat.channels : PixelFormat → Nat
  | PixelFormat.rgb8 => 3
  | PixelFormat.rgba8 => 4

/-- Bits per channel of a colour layout (both layouts are 8-bit). -/
def PixelFormat.bitsPerChannel : PixelFormat → Nat := fun _ => 8

/-- The layout `render_and_save` hands to the codec: `image::ImageRgba8`
(`src/lib.rs` lines 156 and 357). -/
def savedPixelFormat : PixelFormat := PixelFormat.rgba8

/-- Observable lifecycle events of one `render` call. -/
inductive RenderEvent where
  | tempdirCreated
  | fileRendered
  | callbackInvoked
  | tempdirDeleted
deriving DecidableEq

/-- `render` from `src/lib.rs` lines 113-133: hash the data for the
temporary directory name, create the directory (or fail with the fixed
message), render into `chart.png` inside it, invoke the callback on
success, and close the directory on both outcomes before returning.  The
result pairs the ordered lifecycle trace with the returned value; `hash`
stands for the `DefaultHasher` digest (a pure function of the data). -/
def render (table : Nat → Nat → Nat) (opts : OHLCRenderOptions) (data : List OHLC)
    (env : Env) (cb : String → Except String Unit) (hash : List OHLC → Nat) :
    List RenderEvent × Except String (Except String Unit) :=
  if env.tempdir_ok then
    let file_path := "ohlc_render_" ++ toString (hash data) ++ "/chart.png"
    match renderAndSave table opts data env with
    | Except.ok _ =>
        ([RenderEvent.tempdirCreated, RenderEvent.fileRendered,
          RenderEvent.callbackInvoked, RenderEvent.tempdirDeleted],
         Except.ok (cb file_path))
    | Except.error e =>
        ([RenderEvent.tempdirCreated, RenderEvent.tempdirDeleted], Except.error e)
  else ([], Except.error "Failed to create a temporary directory.")

/-- An all-zero font table (concrete stand-in where a theorem needs some
fixed table). -/
def tbl0 : Nat → Nat → Nat := fun _ _ => 0

/-- Concrete axis options: no colours, no intervals. -/
def axis0 : AxisOptions := ⟨[], 0, 0, 0, 0, 0⟩

/-- Concrete render options: empty title, all colours zero. -/
def opts0 : OHLCRenderOptions := ⟨[], 0, 0, 0, axis0, 0, 0⟩

/-- A concrete benign environment: every operating-system interaction
succeeds. -/
def env0 : Env := ⟨0, fun _ => 0, true, true, true⟩

/-- A concrete well-formed bar. -/
def bar0 : OHLC := ⟨1, 2, 0, 1⟩

/-! ### Helper lemmas -/

theorem barErr_none_iff (e : OHLC) : barErr e = none ↔ wellFormed e := by
  unfold barErr wellFormed
  split_ifs with h1 h2 h3 h4 h5
  · exact iff_of_false (by simp) (fun hw => absurd h1 (not_lt.mpr hw.2.1))
  · exact iff_of_false (by simp) (fun hw => absurd h2 (not_lt.mpr hw.2.2.2))
  · exact iff_of_false (by simp) (fun hw => absurd h3 (not_lt.mpr (le_trans hw.1 hw.2.1)))
  · exact iff_of_false (by simp) (fun hw => absurd h4 (not_lt.mpr hw.1))
  · exact iff_of_false (by simp) (fun hw => absurd h5 (not_lt.mpr hw.2.2.1))
  · exact iff_of_true rfl ⟨not_lt.mp h4, not_lt.mp h1, not_lt.mp h5, not_lt.mp h2⟩

theorem validate_ok_iff (data : List OHLC) :
    validate data = Except.ok () ↔ ∀ e ∈ data, wellFormed e := by
  induction data with
  | nil => simp [validate]
  | cons x xs ih =>
      cases hx : barErr x with
      | some msg =>
          simp only [validate, hx]
          constructor
          · intro hc; exact absurd hc (by simp)
          · intro hall
            have hn := (barErr_none_iff x).mpr (hall x (by simp))
            rw [hx] at hn; exact absurd hn (by simp)
      | none =>
          simp only [validate, hx]
          rw [ih]
          constructor
          · intro hall e he
            rcases List.mem_cons.mp he with he | he
            · subst he; exact (barErr_none_iff e).mp hx
            · exact hall e he
          · intro hall e he; exact hall e (List.mem_cons_of_mem _ he)

theorem validate_first_error (pre : List OHLC) (bad : OHLC) (rest : List OHLC) (msg : String)
    (hpre : ∀ e ∈ pre, barErr e = none) (hbad : barErr bad = some msg) :
    validate (pre ++ bad :: rest) = Except.error msg := by
  induction pre with
  | nil => simp only [List.nil_append, validate, hbad]
  | cons x xs ih =>
      have hx : barErr x = none := hpre x (by simp)
      simp only [List.cons_append, validate, hx]
      exact ih (fun e he => hpre e (List.mem_cons_of_mem _ he))

theorem barErr_eq_firstViolation (e : OHLC) :
    barErr e = Option.map violationMsg (firstViolation e) := by
  unfold barErr firstViolation
  split_ifs <;> rfl

theorem setPx_dims (img : Image) (x y : Nat) (p : Px) : (setPx img x y p).dims = img.dims := rfl

theorem foldl_dims {α : Type} (f : Image → α → Image)
    (hf : ∀ im a, (f im a).dims = im.dims) (l : List α) :
    ∀ im : Image, (l.foldl f im).dims = im.dims := by
  induction l with
  | nil => intro im; rfl
  | cons a t ih => intro im; rw [List.foldl_cons, ih, hf]

theorem paintBorder_dims (colour : Nat) (img : Image) (x y iy ix : Nat) :
    (paintBorder colour img x y iy ix).dims = img.dims := by
  unfold paintBorder
  dsimp only
  split <;> rfl

theorem glyphPixelStep_dims (table : Nat → Nat → Nat) (opts : OHLCRenderOptions) (colour : Nat)
    (border : Bool) (row : Nat) (img : Image) (x y iy ix : Nat) :
    (glyphPixelStep table opts colour border row img x y iy ix).dims = img.dims := by
  have himg1 : (if border then paintBorder colour img x y iy ix else img).dims = img.dims := by
    split
    · exact paintBorder_dims ..
    · rfl
  unfold glyphPixelStep
  dsimp only
  split
  · exact (setPx_dims _ _ _ _).trans himg1
  · exact (setPx_dims _ _ _ _).trans himg1

theorem drawText_dims (table : Nat → Nat → Nat) (opts : OHLCRenderOptions) (img : Image)
    (e : TextEntry) : (drawText table opts img e).dims = img.dims := by
  unfold drawText
  refine foldl_dims _ (fun im f_x => ?_) _ img
  refine foldl_dims _ (fun im2 iy => ?_) _ im
  refine foldl_dims _ (fun im3 ix => ?_) _ im2
  exact glyphPixelStep_dims ..

set_option maxRecDepth 4000 in
theorem drawBar_dims (opts : OHLCRenderOptions) (set : OHLC) (cw : RVal) (stick : Nat)
    (len : Nat) (img : Image) (i : Nat) (elem : OHLC) :
    (drawBar opts set cw stick len img i elem).dims = img.dims := by
  have hin : ∀ (c yy : Nat) (l : List Nat) (im : Image),
      (l.foldl (fun im2 x => setPx im2 x yy (colourToPx c)) im).dims = im.dims := by
    intro c yy l im
    refine foldl_dims _ (fun im2 x => ?_) l im
    rfl
  have hrect : ∀ (c : Nat) (xl : List Nat) (rows : List Nat) (im : Image),
      (rows.foldl (fun im3 y_state => xl.foldl
        (fun im2 x => setPx im2 x (canvas_height - y_state - margin_bottom) (colourToPx c)) im3)
        im).dims = im.dims := by
    intro c xl rows im
    refine foldl_dims _ (fun im3 y => ?_) rows im
    exact hin c (canvas_height - y - margin_bottom) xl im3
  have hmk : ∀ (c xc yv : Nat) (im : Image) (p : ℤ × ℤ),
      (if p.1 = p.2 ∨ p.1 + p.2 = 0 ∨ p.1 = 0 then
          setPx im (wrap32 (p.1 + (xc : ℤ))) (wrap32 (p.2 + (yv : ℤ))) (colourToPx c)
        else im).dims = im.dims := by
    intro c xc yv im p
    split <;> rfl
  unfold drawBar
  dsimp only
  split
  · exact (foldl_dims _ (hmk _ _ _) _ _).trans
      ((hin _ _ _ _).trans ((hrect _ _ _ _).trans (hrect _ _ _ _)))
  · exact (hrect _ _ _ _).trans (hrect _ _ _ _)

theorem fillBackground_dims (opts : OHLCRenderOptions) (img : Image) :
    (fillBackground opts img).dims = img.dims := by
  unfold fillBackground
  split
  · refine foldl_dims _ (fun im x => ?_) _ img
    refine foldl_dims _ (fun im2 y => ?_) _ im
    rfl
  · rfl

theorem drawGridLines_dims (opts : OHLCRenderOptions) (set : OHLC) (img : Image) :
    (drawGridLines opts set img).dims = img.dims := by
  unfold drawGridLines
  dsimp only
  split
  · refine foldl_dims _ (fun im y_es => ?_) _ img
    dsimp only
    split
    · refine foldl_dims _ (fun im2 x => ?_) _ im
      rfl
    · rfl
  · rfl

set_option maxRecDepth 4000 in
theorem drawAll_dims (table : Nat → Nat → Nat) (opts : OHLCRenderOptions) (data : List OHLC) :
    (drawAll table opts data).dims = (canvas_width, canvas_height) := by
  unfold drawAll
  dsimp only
  refine (foldl_dims _ (fun im e => ?_) _ _).trans
    ((foldl_dims _ (fun im p => ?_) _ _).trans
      ((drawGridLines_dims _ _ _).trans ((fillBackground_dims _ _).trans rfl)))
  · exact drawText_dims table opts im e
  · exact drawBar_dims _ _ _ _ _ im p.1 p.2

/-! ### Claim theorems -/

/-- C1: the claim says `BollingerBands::apply` on a series of length at
most `periods` draws nothing and does not panic.  In fact on every such
series `bands` stays empty and the loop bound `bands.len() - 1` underflows
`usize`, so `apply` panics (`none`): the code contradicts the failure
semantics the specification states for indicator layers. -/
theorem bollinger_short_series_panics {α : Type} (periods standard_deviations line_colour : Nat)
    (timeframe : ℤ) (med : α → ℚ) (coords : ℝ → ℤ → ℤ × ℤ) (data : List α)
    (hshort : data.length ≤ periods) :
    bollingerApply periods standard_deviations line_colour timeframe med coords data = none := by
  unfold bollingerApply
  rw [Nat.sub_eq_zero_of_le hshort]
  rfl

/-- C1 witness: a one-bar series under a two-period Bollinger layer makes
`apply` panic. -/
theorem bollinger_short_series_panics_witness :
    bollingerApply 2 2 0 3600 (fun q : ℚ => q) (fun _ _ => (0, 0)) [(1 : ℚ)] = none :=
  bollinger_short_series_panics 2 2 0 3600 (fun q => q) (fun _ _ => (0, 0)) [(1 : ℚ)]
    (by decide)

unseal Rat.add Rat.sub Rat.mul Rat.inv in
/-- C2 counterexample: the claim says the empty series is rejected with a
distinct explicit error before any rendering.  In fact `validate` accepts
the empty series, and with every external interaction succeeding the whole
`render_and_save` call completes without any error. -/
theorem empty_series_not_rejected :
    validate [] = Except.ok () ∧ isOkE (renderAndSave tbl0 opts0 [] env0) = true :=
  ⟨rfl, rfl⟩

unseal Rat.add Rat.sub Rat.mul Rat.inv in
/-- C2 amended: `validate` accepts the empty series; `render_and_save`
then proceeds, its candle-width computation divides the drawable width by
the series length zero in floating point (yielding positive infinity, not
a panic), and — with the aggregate-summary helper modelled from the spec —
the call completes without reporting any empty-series error. -/
theorem empty_series_amended :
    validate [] = Except.ok () ∧
    candleWidthR 0 = RVal.pinf ∧
    isOkE (renderAndSave tbl0 opts0 [] env0) = true :=
  ⟨rfl, by decide, rfl⟩

/-- C3: for a non-empty series, `validate` succeeds exactly when every bar
satisfies `low ≤ open ≤ high` and `low ≤ close ≤ high`; otherwise it
reports, for the first violating bar, the message of that bar's first
failing relation in the fixed priority order `open>high, close>high,
low>high, open<low, close<low`, and the bars after the failing one never
influence the result (the tail `rest` is arbitrary). -/
theorem validate_spec (data : List OHLC) (hne : data ≠ []) :
    (validate data = Except.ok () ↔
      ∀ e ∈ data, e.l ≤ e.o ∧ e.o ≤ e.h ∧ e.l ≤ e.c ∧ e.c ≤ e.h) ∧
    (∀ (pre : List OHLC) (bad : OHLC) (rest : List OHLC) (v : Violation),
      data = pre ++ bad :: rest → (∀ e ∈ pre, firstViolation e = none) →
      firstViolation bad = some v → validate data = Except.error (violationMsg v)) := by
  constructor
  · simpa [wellFormed] using validate_ok_iff data
  · intro pre bad rest v hsplit hpre hbad
    subst hsplit
    refine validate_first_error pre bad rest (violationMsg v) (fun e he => ?_) ?_
    · rw [barErr_eq_firstViolation, hpre e he]; rfl
    · rw [barErr_eq_firstViolation, hbad]; rfl

/-- C3 witness: a well-formed singleton validates; a bar whose open
exceeds its high fails with the open-above-high message. -/
theorem validate_spec_witness :
    validate [bar0] = Except.ok () ∧
    validate [⟨5, 3, 0, 1⟩] = Except.error "Opening value is higher than high value." :=
  ⟨(validate_spec [bar0] (List.cons_ne_nil _ _)).1.mpr (by decide),
   (validate_spec [⟨5, 3, 0, 1⟩] (List.cons_ne_nil _ _)).2 [] ⟨5, 3, 0, 1⟩ []
     Violation.openHigh rfl (by simp) (by decide)⟩

set_option maxRecDepth 8000 in
/-- C4: `render` creates the transient directory, renders into it, invokes
the callback synchronously while the rendered file still exists (the
callback event sits between the render event and the delete event), and
deletes the transient directory on every path on which it was created,
regardless of the callback outcome; the outer result is an error exactly
when directory creation or `render_and_save` fails, and otherwise wraps
the callback's own result. -/
theorem render_lifecycle (table : Nat → Nat → Nat) (opts : OHLCRenderOptions) (data : List OHLC)
    (env : Env) (cb : String → Except String Unit) (hash : List OHLC → Nat) :
    (RenderEvent.tempdirCreated ∈ (render table opts data env cb hash).1 →
      RenderEvent.tempdirDeleted ∈ (render table opts data env cb hash).1) ∧
    (RenderEvent.callbackInvoked ∈ (render table opts data env cb hash).1 →
      (render table opts data env cb hash).1 =
        [RenderEvent.tempdirCreated, RenderEvent.fileRendered,
         RenderEvent.callbackInvoked, RenderEvent.tempdirDeleted]) ∧
    ((render table opts data env cb hash).2 =
      if env.tempdir_ok then
        Except.map (fun _ => cb ("ohlc_render_" ++ toString (hash data) ++ "/chart.png"))
          (renderAndSave table opts data env)
      else Except.error "Failed to create a temporary directory.") ∧
    (∀ e : String, (render table opts data env cb hash).2 = Except.error e ↔
      ((env.tempdir_ok = false ∧ e = "Failed to create a temporary directory.") ∨
       (env.tempdir_ok = true ∧ renderAndSave table opts data env = Except.error e))) := by
  cases ht : env.tempdir_ok with
  | false =>
      simp only [render, ht, Bool.false_eq_true, if_false]
      refine ⟨fun h => absurd h (List.not_mem_nil _), fun h => absurd h (List.not_mem_nil _),
        by trivial, fun e => ?_⟩
      constructor
      · intro h
        injection h with h2
        exact Or.inl ⟨trivial, h2.symm⟩
      · rintro (⟨-, h2⟩ | ⟨h1, -⟩)
        · rw [h2]
        · exact absurd h1 (by simp)
  | true =>
      cases hr : renderAndSave table opts data env with
      | ok img =>
          simp only [render, ht, hr, if_true]
          refine ⟨fun _ => by simp, fun _ => by trivial, by trivial, fun e => ?_⟩
          constructor
          · intro h
            exact absurd h (by simp)
          · rintro (⟨h1, -⟩ | ⟨-, h2⟩)
            · exact absurd h1 (by simp)
            · exact absurd h2 (by simp)
      | error e0 =>
          simp only [render, ht, hr, if_true]
          refine ⟨fun _ => by simp, fun h => absurd h (by simp), by trivial, fun e => ?_⟩
          constructor
          · intro h
            injection h with h2
            exact Or.inr ⟨trivial, by rw [h2]⟩
          · rintro (⟨h1, -⟩ | ⟨-, h2⟩)
            · exact absurd h1 (by simp)
            · injection h2 with h3
              rw [h3]

unseal Rat.add Rat.sub Rat.mul Rat.inv in
/-- C4 witness: on a valid one-bar series with every external interaction
succeeding, the trace is create, render, callback, delete. -/
theorem render_lifecycle_witness :
    RenderEvent.tempdirDeleted ∈
      (render tbl0 opts0 [bar0] env0 (fun _ => Except.ok ()) (fun _ => 0)).1 ∧
    (render tbl0 opts0 [bar0] env0 (fun _ => Except.ok ()) (fun _ => 0)).1 =
      [RenderEvent.tempdirCreated, RenderEvent.fileRendered,
       RenderEvent.callbackInvoked, RenderEvent.tempdirDeleted] :=
  ⟨(render_lifecycle tbl0 opts0 [bar0] env0 (fun _ => Except.ok ()) (fun _ => 0)).1
     (by decide),
   (render_lifecycle tbl0 opts0 [bar0] env0 (fun _ => Except.ok ()) (fun _ => 0)).2.1
     (by decide)⟩

unseal Rat.add Rat.sub Rat.mul Rat.inv in
/-- C5 counterexample: the claim says a flat series (aggregate high equal
to aggregate low) maps every price to the vertical centre
`top_margin + drawable_height / 2 = 372`.  In fact the mapping computes
`0.0 / 0.0 = NaN`, whose `u32` cast is 0, so the price lands on the bottom
drawable row 685. -/
theorem flat_series_not_centered :
    priceToY ⟨3, 3, 3, 3⟩ 3 = 685 ∧
    priceToY ⟨3, 3, 3, 3⟩ 3 ≠ margin_top + (canvas_height - (margin_top + margin_bottom)) / 2 := by
  constructor
  · decide
  · decide

/-- C5 amended: on a flat series no division-by-zero panic occurs — the
IEEE division `0.0 / 0.0` yields NaN, whose `u32` cast is 0 — and every
price of the series maps to the bottom of the drawable rectangle,
`y = height - margin_bottom = 685`, not the vertical centre. -/
theorem flat_series_maps_to_bottom (v : ℚ) :
    priceToY ⟨v, v, v, v⟩ v = canvas_height - margin_bottom ∧
    canvas_height - margin_bottom = 685 := by
  refine ⟨?_, rfl⟩
  have h1 : yValIncrement ⟨v, v, v, v⟩ = RVal.num 0 := by
    unfold yValIncrement OHLC.range
    norm_num [RVal.div, canvas_height, margin_top, margin_bottom]
  unfold priceToY ysOf
  rw [h1]
  have h2 : RVal.div (RVal.num (v - v)) (RVal.num 0) = RVal.nan := by
    norm_num [RVal.div]
  rw [h2]
  rfl

/-- C6 counterexample: the claim says the written image has no alpha
channel; the buffer handed to the codec is `image::ImageRgba8`, which has
one. -/
theorem saved_format_not_rgb : savedPixelFormat.hasAlpha = true := rfl

/-- C6 amended: for every valid series `render_and_save` writes a
fixed-format image that is a flat RGBA pixel grid — four channels of
8 bits each, including an alpha channel. -/
theorem saved_format_rgba :
    savedPixelFormat = PixelFormat.rgba8 ∧
    savedPixelFormat.channels = 4 ∧
    savedPixelFormat.bitsPerChannel = 8 ∧
    savedPixelFormat.hasAlpha = true :=
  ⟨rfl, rfl, rfl, rfl⟩

unseal Rat.add Rat.sub Rat.mul Rat.inv in
/-- C7: the claim says every text byte outside printable ASCII is
substituted with the space glyph and rendering cannot fail.  The
range-check closure of the source is applied to the cell index instead of
the byte, so a byte of at least 127 (here 0xFF) indexes the 127-row font
table out of bounds: the glyph lookup panics, and a render whose title
contains that byte fails instead of substituting a space. -/
theorem glyph_oob_panics :
    glyphAt [255] 0 = none ∧
    renderBuffer tbl0 { opts0 with title := [255] } [bar0] env0 =
      Except.error "index out of bounds in fonts::ASCII_TABLE" :=
  ⟨rfl, rfl⟩

/-- C8: the pixel-buffer computation of `render_and_save` is a pure
function of the font table, the configuration and the data: it is
independent of the ambient environment (clock, entropy, operating-system
state), so rendering the same configuration and data twice produces
byte-identical pixel buffers. -/
theorem render_buffers_deterministic (table : Nat → Nat → Nat) (opts : OHLCRenderOptions)
    (data : List OHLC) (e1 e2 : Env) :
    renderBuffer table opts data e1 = renderBuffer table opts data e2 := rfl

/-- C9: `std_dev` returns 0 on every list with at most one element, and on
longer lists returns the square root of the sum of squared deviations from
the arithmetic mean divided by `n - 1`; on `[1,2,3,4,5]` the value lies
strictly between 1.5811 and 1.5812. -/
theorem std_dev_spec :
    (∀ l : List ℚ, l.length ≤ 1 → std_dev l = 0) ∧
    (∀ l : List ℚ, 2 ≤ l.length →
      std_dev l =
        Real.sqrt ((((l.map (fun p => (avg l - p) ^ 2)).sum / ((l.length - 1 : ℕ) : ℚ) : ℚ)) : ℝ)) ∧
    ((1.5811 : ℝ) < std_dev [1, 2, 3, 4, 5] ∧ std_dev [1, 2, 3, 4, 5] < (1.5812 : ℝ)) := by
  have hv : std_dev_sq [1, 2, 3, 4, 5] = 5 / 2 := by
    norm_num [std_dev_sq, avg, List.sum_cons, List.map_cons]
  refine ⟨?_, ?_, ?_⟩
  · intro l hl
    unfold std_dev std_dev_sq
    rw [if_pos hl]
    simp
  · intro l hl
    unfold std_dev std_dev_sq
    rw [if_neg (by omega)]
  · have hs : std_dev [1, 2, 3, 4, 5] = Real.sqrt ((5 / 2 : ℚ) : ℝ) := by
      unfold std_dev; rw [hv]
    have hc : (((5 / 2 : ℚ)) : ℝ) = (5 / 2 : ℝ) := by norm_num
    rw [hs, hc]
    constructor
    · nlinarith [Real.sq_sqrt (show (0 : ℝ) ≤ 5 / 2 by norm_num),
        Real.sqrt_nonneg (5 / 2 : ℝ)]
    · nlinarith [Real.sq_sqrt (show (0 : ℝ) ≤ 5 / 2 by norm_num),
        Real.sqrt_nonneg (5 / 2 : ℝ)]

/-- C9 witness: a singleton has standard deviation 0; a two-element list
takes the explicit sum-of-squares form. -/
theorem std_dev_spec_witness :
    std_dev [(7 : ℚ)] = 0 ∧
    std_dev [(1 : ℚ), 2] =
      Real.sqrt (((([(1 : ℚ), 2].map (fun p => (avg [(1 : ℚ), 2] - p) ^ 2)).sum /
        ((([(1 : ℚ), 2]).length - 1 : ℕ) : ℚ) : ℚ)) : ℝ) :=
  ⟨std_dev_spec.1 [(7 : ℚ)] (by decide), std_dev_spec.2.1 [(1 : ℚ), 2] (by decide)⟩

/-- C10: the canvas is always allocated at 1280 x 720 with margins 60, 35,
0, 90, independently of the series and the configuration, so every
successfully written output image has dimensions 1280 x 720. -/
theorem canvas_always_1280x720 :
    (∀ (table : Nat → Nat → Nat) (opts : OHLCRenderOptions) (data : List OHLC) (env : Env),
      savedDims (renderAndSave table opts data env) = none ∨
      savedDims (renderAndSave table opts data env) = some (1280, 720)) ∧
    canvas_width = 1280 ∧ canvas_height = 720 ∧
    margin_top = 60 ∧ margin_bottom = 35 ∧ margin_left = 0 ∧ margin_right = 90 := by
  refine ⟨?_, rfl, rfl, rfl, rfl, rfl, rfl⟩
  intro table opts data env
  unfold renderAndSave
  cases hb : renderBuffer table opts data env with
  | error e => left; rfl
  | ok img =>
      have hdims : img.dims = (1280, 720) := by
        unfold renderBuffer at hb
        cases hv : validate data with
        | error e => rw [hv] at hb; exact absurd hb (by simp)
        | ok u =>
            rw [hv] at hb
            dsimp only at hb
            split at hb
            · exact absurd hb (by simp)
            · injection hb with himg
              rw [← himg]
              exact drawAll_dims table opts data
      by_cases hfo : env.file_ok
      · by_cases hco : env.codec_ok
        · right
          simp only [hfo, hco, if_true, savedDims]
          have hwh : (img.width, img.height) = (1280, 720) := hdims
          rw [hwh]
        · left; simp [hfo, hco, savedDims]
      · left; simp [hfo, savedDims]

end Ohlc
